import Mathlib

/-!
Verification of the caddy-anubis middleware (`caddy_anubis.go`).

The file embeds the repository's core functions in Lean 4:

* the host/domain resolver: `validOptionalPort`, `splitHostPort`,
  `splitSubDomainDomain`, `DomainFromRequest` — pure string functions,
  embedded over `List Char` with `String` wrappers;
* the lazy per-domain instance registry and dispatcher:
  `CreateAnubisServer` / `ServeHTTP`, embedded as explicit state passing
  over a registry state (`MState`); the external challenge engine
  (`libanubis.Server`) is represented by an instance identity (a
  construction serial number) and the pass-through closure handed to it
  (`Options.Next` in the source) is embedded as `anubisNextHandler`;
* an interleaving model of `CreateAnubisServer` for the concurrency
  analysis, decomposing its body into the atomic actions
  check / construct / insert.
-/

namespace CaddyAnubis

/-! ## Host/Domain resolver (caddy_anubis.go lines 41-91) -/

/-- Index of the last occurrence of `c` in `s`, mirroring Go's
`strings.LastIndexByte` (`none` plays the role of `-1`). -/
def lastIdx (c : Char) : List Char → Option Nat
  | [] => none
  | x :: xs =>
    match lastIdx c xs with
    | some i => some (i + 1)
    | none => if x = c then some 0 else none

/-- Go's per-byte digit test `b < '0' || b > '9'`, negated. -/
def isDigitByte (b : Char) : Bool := decide ('0' ≤ b) && decide (b ≤ '9')

/-- `validOptionalPort` (lines 43-56): reports whether `port` is either
the empty string or matches `/^:\d*$/`. -/
def validOptionalPort (port : List Char) : Bool :=
  match port with
  | [] => true
  | c :: rest => c = ':' && rest.all isDigitByte

/-- The port-stripping stage of `splitHostPort` (lines 61-64): find the
last colon; if the suffix from it on is a valid optional port, split
there, else keep the whole string as host with empty port. -/
def stripPort (host : List Char) : List Char × List Char :=
  match lastIdx ':' host with
  | some colon =>
    if validOptionalPort (host.drop colon)
    then (host.take colon, host.drop (colon + 1))
    else (host, [])
  | none => (host, [])

/-- The bracket-stripping stage of `splitHostPort` (lines 66-68): if the
host starts with `[` and ends with `]`, remove both. -/
def stripBrackets (host : List Char) : List Char :=
  if host.head? = some '[' ∧ host.getLast? = some ']'
  then (host.drop 1).dropLast
  else host

/-- `splitHostPort` (lines 58-71): strip a valid optional `:port`
suffix, then surrounding square brackets. -/
def splitHostPort (hostPort : List Char) : List Char × List Char :=
  let hp := stripPort hostPort
  (stripBrackets hp.1, hp.2)

/-- `splitSubDomainDomain` (lines 73-85): keep the last two
dot-separated labels as the domain; everything before them is the
subdomain; with fewer than two labels the whole host is the domain. -/
def splitSubDomainDomain (host : List Char) : List Char × List Char :=
  match lastIdx '.' host with
  | none => ([], host)
  | some tldPeriod =>
    let withoutTLD := host.take tldPeriod
    match lastIdx '.' withoutTLD with
    | none => ([], host)
    | some subdomainPeriod =>
      (host.take subdomainPeriod, host.drop (subdomainPeriod + 1))

/-- Apex-domain resolution on character lists: the composition performed
by `DomainFromRequest` (lines 87-91). -/
def apexOfList (hostPort : List Char) : List Char :=
  (splitSubDomainDomain (splitHostPort hostPort).1).2

/-- `DomainFromRequest` (lines 87-91), as a function of the request's
`Host` field (the only part of the request it reads): split off the
port, then keep the domain part of the subdomain/domain split. -/
def DomainFromRequest (host : String) : String :=
  ⟨apexOfList host.data⟩

/-- The spec's name for the same contract (§4.1
`resolveApexDomain(hostHeader: string) -> string`). -/
def resolveApexDomain (host : String) : String :=
  DomainFromRequest host

example : resolveApexDomain "a.b.example.com" = "example.com" := by decide
example : resolveApexDomain "x.example.com" = "example.com" := by decide
example : resolveApexDomain "example.com" = "example.com" := by decide
example : resolveApexDomain "localhost" = "localhost" := by decide
example : resolveApexDomain "[::1]:80" = "::1" := by decide
example : resolveApexDomain "::1" = ":" := by decide
example : resolveApexDomain "example.com:80:99" = "example.com:80" := by decide
example : resolveApexDomain "example.com:80" = "example.com" := by decide
example : resolveApexDomain "" = "" := by decide

/-! ## Instance registry and dispatcher (caddy_anubis.go lines 93-171)

The external challenge engine (`libanubis.Server`) is opaque; an
instance is represented by its identity, a `Nat` serial number handed
out at construction time.  `libanubis.New` is abstracted as a factory
`fac : Nat → Except String Unit` telling, for each construction
attempt (numbered by the running count of factory invocations), whether
the constructor succeeds or with which error it fails — the test double
of the spec that counts constructions. -/

/-- Association lookup in the `AnubisServers` map (`m.AnubisServers[domain]`). -/
def lookupD (d : String) : List (String × Nat) → Option Nat
  | [] => none
  | (k, v) :: rest => if k = d then some v else lookupD d rest

/-- The mutable middleware state: the `AnubisServers` registry map of
`AnubisMiddleware`, plus the construction counter of the factory test
double (number of `libanubis.New` invocations so far). -/
structure MState where
  servers : List (String × Nat)
  constructions : Nat
deriving DecidableEq, Repr

/-- The state of a freshly provisioned middleware: no servers created. -/
def initState : MState := ⟨[], 0⟩

/-- `CreateAnubisServer` (lines 93-134) for a given resolved domain:
if the registry already holds a server for `domain`, return success
unchanged; otherwise invoke the factory (`libanubis.New`) — on error
return it with no registry entry added, on success insert the freshly
constructed server under `domain`.  The result pairs the returned
error (`nil` = `none`) with the post-state. -/
def createAnubisServer (fac : Nat → Except String Unit) (domain : String)
    (s : MState) : Option String × MState :=
  if (lookupD domain s.servers).isSome then
    (none, s)
  else
    match fac s.constructions with
    | .error e => (some e, ⟨s.servers, s.constructions + 1⟩)
    | .ok _ => (none, ⟨(domain, s.constructions) :: s.servers, s.constructions + 1⟩)

/-- What the pass-through closure did with the response. -/
inductive PassResponse where
  | redirected (url : String) (status : Nat)
  | downstreamServed
deriving DecidableEq, Repr

/-- Outcome of running the pass-through closure: the response action
taken and the error message it logged, if any.  The closure is an
`http.HandlerFunc` and so has no error channel back to its caller. -/
structure PassResult where
  response : PassResponse
  logged : Option String
deriving DecidableEq, Repr

/-- The `Options.Next` closure built in `CreateAnubisServer`
(lines 108-120): if `m.Target` is set, answer with an
`http.StatusTemporaryRedirect` (307) to that URL; otherwise call the
downstream `m.Next` handler and, if it returns an error, log it
(and drop it — the closure returns nothing). `downstreamErr` is the
error the downstream handler would return if invoked. -/
def anubisNextHandler (target : Option String) (downstreamErr : Option String) :
    PassResult :=
  match target with
  | some t => ⟨.redirected t 307, none⟩
  | none => ⟨.downstreamServed, downstreamErr⟩

/-- `ServeHTTP` (lines 158-171): resolve the domain from the request's
host, run `CreateAnubisServer`; on creation error return it; otherwise
delegate to the registered server (`m.AnubisServers[domain].ServeHTTP`)
and return `nil`.  The components of the result are: the error returned
to the Caddy caller, the post-state, the identity of the instance the
request was delegated to, and — when the engine lets the request pass
(`enginePasses`) — the outcome of the pass-through closure. -/
def serveHTTP (fac : Nat → Except String Unit) (target : Option String)
    (enginePasses : Bool) (downstreamErr : Option String)
    (host : String) (s : MState) :
    Option String × MState × Option Nat × Option PassResult :=
  let domain := DomainFromRequest host
  match createAnubisServer fac domain s with
  | (some e, s') => (some e, s', none, none)
  | (none, s') =>
    (none, s', lookupD domain s'.servers,
      if enginePasses then some (anubisNextHandler target downstreamErr) else none)

/-- Sequential requests: run `serveHTTP` once per host in order,
collecting the identity of the instance each request was delegated to. -/
def serveSeq (fac : Nat → Except String Unit) (target : Option String)
    (enginePasses : Bool) (downstreamErr : Option String) :
    List String → MState → MState × List (Option Nat)
  | [], s => (s, [])
  | h :: rest, s =>
    let r := serveHTTP fac target enginePasses downstreamErr h s
    let f := serveSeq fac target enginePasses downstreamErr rest r.2.1
    (f.1, r.2.2.1 :: f.2)

/-- A factory that always succeeds (every `libanubis.New` call returns
a server). -/
def okFac : Nat → Except String Unit := fun _ => .ok ()

/-! ## Interleaving model of `CreateAnubisServer` (concurrency)

`CreateAnubisServer` performs, without any synchronization, three
steps that are separately atomic at best: the registry lookup
(line 100), the `libanubis.New` construction (lines 107-126), and the
map insertion (line 131).  To analyse concurrent first requests the
body is decomposed into those actions; a schedule is a list of request
indices saying which in-flight request performs its next action. -/

/-- Per-request progress through `CreateAnubisServer`:
phase 0 = about to do the map lookup, phase 1 = saw the domain absent
and is about to construct, phase 2 = constructed (holding instance
`myId`) and about to insert, phase 3 = finished; `myId` is the
instance identity the request ends up observing. -/
structure RaceLocal where
  phase : Nat
  myId : Nat
deriving DecidableEq, Repr

/-- Shared registry state plus the in-flight requests' local states. -/
structure RaceState where
  servers : List (String × Nat)
  constructions : Nat
  locals : List RaceLocal
deriving DecidableEq, Repr

/-- One atomic action of request `rid` for domain `d`:
lookup (either finds a server and finishes, or proceeds to construct),
construct (invokes `libanubis.New`, success assumed), or insert. -/
def raceStep (d : String) (g : RaceState) (rid : Nat) : RaceState :=
  match g.locals.get? rid with
  | none => g
  | some l =>
    if l.phase = 0 then
      match lookupD d g.servers with
      | some i => { g with locals := g.locals.set rid ⟨3, i⟩ }
      | none => { g with locals := g.locals.set rid ⟨1, l.myId⟩ }
    else if l.phase = 1 then
      { g with constructions := g.constructions + 1,
               locals := g.locals.set rid ⟨2, g.constructions⟩ }
    else if l.phase = 2 then
      { g with servers := (d, l.myId) :: g.servers,
               locals := g.locals.set rid ⟨3, l.myId⟩ }
    else g

/-- Run a schedule of interleaved actions. -/
def runRace (d : String) (sched : List Nat) (g : RaceState) : RaceState :=
  sched.foldl (raceStep d) g

/-- Two requests racing to be the first for domain `d`, both starting
at the lookup. -/
def raceStart : RaceState := ⟨[], 0, [⟨0, 0⟩, ⟨0, 0⟩]⟩

example :
    runRace "example.com" [0, 1, 0, 0, 1, 1] raceStart =
      ⟨[("example.com", 1), ("example.com", 0)], 2, [⟨3, 0⟩, ⟨3, 1⟩]⟩ := by
  decide

/-! ## Lemmas about the resolver -/

theorem lastIdx_eq_none (c : Char) (l : List Char) (h : c ∉ l) :
    lastIdx c l = none := by
  induction l with
  | nil => rfl
  | cons x xs ih =>
    have hx : ¬x = c := fun hxc => h (hxc ▸ List.mem_cons_self x xs)
    have hxs : c ∉ xs := fun hm => h (List.mem_cons_of_mem x hm)
    simp [lastIdx, ih hxs, hx]

theorem lastIdx_append_cons (c : Char) (xs ys : List Char) (h : c ∉ ys) :
    lastIdx c (xs ++ c :: ys) = some xs.length := by
  induction xs with
  | nil => simp [lastIdx, lastIdx_eq_none c ys h]
  | cons x xs ih => simp [lastIdx, ih]

theorem take_len_append (xs ys : List Char) : (xs ++ ys).take xs.length = xs := by
  induction xs with
  | nil => rfl
  | cons x xs ih => simp [List.take_succ_cons, ih]

theorem drop_len_append (xs ys : List Char) : (xs ++ ys).drop xs.length = ys := by
  induction xs with
  | nil => rfl
  | cons x xs ih => simp [ih]

/-- A colon is not an ASCII digit. -/
theorem colon_not_digit : isDigitByte ':' = false := by decide

theorem colon_not_mem_of_all_digits (ds : List Char) (h : ds.all isDigitByte) :
    ':' ∉ ds := by
  intro hm
  have := (List.all_eq_true.mp h) ':' hm
  simp [colon_not_digit] at this

/-- Appending a valid `:digits` suffix: the port-stripping stage removes
exactly that suffix. -/
theorem stripPort_append_digits (h ds : List Char) (hds : ds.all isDigitByte) :
    stripPort (h ++ ':' :: ds) = (h, ds) := by
  have hidx : lastIdx ':' (h ++ ':' :: ds) = some h.length :=
    lastIdx_append_cons ':' h ds (colon_not_mem_of_all_digits ds hds)
  have hdrop : (h ++ ':' :: ds).drop h.length = ':' :: ds := drop_len_append h (':' :: ds)
  have hvalid : validOptionalPort (':' :: ds) = true := by
    simp [validOptionalPort, hds]
  have hdrop1 : (h ++ ':' :: ds).drop (h.length + 1) = ds := by
    have : (h ++ ':' :: ds).drop (h.length + 1) =
        ((h ++ ':' :: ds).drop h.length).drop 1 := by
      rw [List.drop_drop, Nat.add_comm]
    rw [this, hdrop]
    rfl
  simp [stripPort, hidx, hdrop, hvalid, hdrop1, take_len_append h (':' :: ds)]

/-- Whether the host already carries a valid optional `:port` suffix at
its last colon (in which case `splitHostPort` would strip it). -/
def hasPortSuffix (host : List Char) : Bool :=
  match lastIdx ':' host with
  | some colon => validOptionalPort (host.drop colon)
  | none => false

/-- A host with no valid port suffix passes the port-stripping stage
unchanged. -/
theorem stripPort_id_of_no_suffix (h : List Char) (hn : hasPortSuffix h = false) :
    stripPort h = (h, []) := by
  unfold hasPortSuffix at hn
  unfold stripPort
  cases hidx : lastIdx ':' h with
  | none => rfl
  | some colon =>
    rw [hidx] at hn
    have hn' : validOptionalPort (h.drop colon) = false := hn
    simp [hn']

/-- With no dot in the host, `splitSubDomainDomain` returns the host
unchanged as the domain with empty subdomain. -/
theorem splitSubDomainDomain_no_dot (host : List Char) (h : '.' ∉ host) :
    splitSubDomainDomain host = ([], host) := by
  simp [splitSubDomainDomain, lastIdx_eq_none '.' host h]

theorem stripBrackets_wrap (a : List Char) :
    stripBrackets ('[' :: a ++ [']']) = a := by
  have h2 : ('[' :: a ++ [']']).getLast? = some ']' :=
    List.getLast?_concat ('[' :: a)
  unfold stripBrackets
  rw [if_pos ⟨rfl, h2⟩]
  show (a ++ [']']).dropLast = a
  simp

/-! ## Resolver claims -/

/-- C5: apex-domain resolution keeps only the last two dot-separated
labels: `"a.b.example.com"` and `"x.example.com"` both resolve to
`"example.com"`, `"example.com"` resolves to itself, `"localhost"`
resolves to itself, and hence `"a.b.example.com"` and `"example.com"`
resolve to the same apex domain. -/
theorem c5_two_label_apex :
    resolveApexDomain "a.b.example.com" = "example.com" ∧
    resolveApexDomain "x.example.com" = "example.com" ∧
    resolveApexDomain "example.com" = "example.com" ∧
    resolveApexDomain "localhost" = "localhost" ∧
    resolveApexDomain "a.b.example.com" = resolveApexDomain "example.com" := by
  decide

/-- C10: for an unbracketed IPv6-style host whose last colon is
followed only by digits, the trailing colon-segment is stripped as a
port even though it is part of the address: `splitHostPort` turns
`"::1"` into host `":"` with port `"1"`, and resolution of `"::1"`
yields apex domain `":"`. -/
theorem c10_unbracketed_ipv6 :
    splitHostPort ("::1" : String).data = ((":" : String).data, ("1" : String).data) ∧
    resolveApexDomain "::1" = ":" := by
  decide

/-- C8: apex-domain resolution is total (it is a plain Lean function
on all of `String`, mirroring Go code with no partial operation), and
when the port- and bracket-stripped host contains no dot it is returned
unchanged as the apex domain. -/
theorem c8_no_dot_identity (s : String) (h : '.' ∉ (splitHostPort s.data).1) :
    resolveApexDomain s = ⟨(splitHostPort s.data).1⟩ := by
  unfold resolveApexDomain DomainFromRequest apexOfList
  rw [splitSubDomainDomain_no_dot _ h]

/-- Witness for C8 at the empty string (resolution accepts it and
returns it unchanged) and at `"localhost:8080"`. -/
theorem c8_no_dot_identity_witness :
    ('.' ∉ (splitHostPort ("" : String).data).1 ∧
      resolveApexDomain "" = ⟨(splitHostPort ("" : String).data).1⟩) ∧
    ('.' ∉ (splitHostPort ("localhost:8080" : String).data).1 ∧
      resolveApexDomain "localhost:8080" =
        ⟨(splitHostPort ("localhost:8080" : String).data).1⟩) :=
  ⟨⟨by decide, c8_no_dot_identity "" (by decide)⟩,
   ⟨by decide, c8_no_dot_identity "localhost:8080" (by decide)⟩⟩

/-- C7: for every bracketed host with an all-digits port suffix,
`splitHostPort` first strips the numeric port, then the surrounding
brackets, handing the bare inner address to the subdomain/domain
split. -/
theorem c7_bracketed_ipv6 (a ds : String) (hds : ds.data.all isDigitByte = true) :
    splitHostPort ("[" ++ a ++ "]:" ++ ds).data = (a.data, ds.data) := by
  have hdata : ("[" ++ a ++ "]:" ++ ds).data =
      ('[' :: a.data ++ [']']) ++ ':' :: ds.data := by
    simp [String.data_append]
  unfold splitHostPort
  rw [hdata, stripPort_append_digits _ _ hds]
  show (stripBrackets ('[' :: a.data ++ [']']), ds.data) = (a.data, ds.data)
  rw [stripBrackets_wrap]

/-- C6 counterexample: the universally quantified claim fails for a
host that itself already ends in a valid numeric-port suffix.  With
`h = "example.com:80"` and digit suffix `":99"`, resolution of
`"example.com:80:99"` strips only `":99"` and yields
`"example.com:80"`, while resolution of `"example.com:80"` strips
`":80"` and yields `"example.com"`. -/
theorem c6_counterexample :
    ("99" : String).data.all isDigitByte = true ∧
    resolveApexDomain ("example.com:80" ++ ":" ++ "99") ≠
      resolveApexDomain "example.com:80" ∧
    resolveApexDomain ("example.com:80" ++ ":" ++ "99") = "example.com:80" ∧
    resolveApexDomain "example.com:80" = "example.com" := by
  decide

/-- C6 amended: for every host string `h` that does not itself end in
a valid optional-port suffix (`':'` followed by zero or more digits
after its last colon), appending `':'` plus a digit string leaves
apex-domain resolution unchanged; and a trailing colon-segment
containing a non-digit character is kept as part of the host — the
port-stripping stage removes nothing. -/
theorem c6_port_ignored (h ds : String)
    (hds : ds.data.all isDigitByte = true)
    (hn : hasPortSuffix h.data = false) :
    resolveApexDomain (h ++ ":" ++ ds) = resolveApexDomain h ∧
    (∀ host tail : List Char, ':' ∉ tail →
      (∃ c ∈ tail, isDigitByte c = false) →
      stripPort (host ++ ':' :: tail) = (host ++ ':' :: tail, [])) := by
  constructor
  · have hdata : (h ++ ":" ++ ds).data = h.data ++ ':' :: ds.data := by
      simp [String.data_append]
    unfold resolveApexDomain DomainFromRequest apexOfList splitHostPort
    rw [hdata, stripPort_append_digits _ _ hds, stripPort_id_of_no_suffix _ hn]
  · intro host tail hcol hex
    have hidx : lastIdx ':' (host ++ ':' :: tail) = some host.length :=
      lastIdx_append_cons ':' host tail hcol
    have hdrop : (host ++ ':' :: tail).drop host.length = ':' :: tail :=
      drop_len_append host (':' :: tail)
    have htail : tail.all isDigitByte = false := by
      rcases hex with ⟨c, hc, hcd⟩
      cases hall : tail.all isDigitByte with
      | false => rfl
      | true =>
        have hcall := List.all_eq_true.mp hall c hc
        rw [hcd] at hcall
        cases hcall
    have hvp : validOptionalPort (':' :: tail) = false := by
      simp [validOptionalPort, htail]
    simp [stripPort, hidx, hdrop, hvp]

/-- Witness for the amended C6 at `h = "example.com"`, `ds = "8080"`:
`"example.com:8080"` resolves like `"example.com"`, and a host with a
non-digit trailing colon-segment is kept whole. -/
theorem c6_port_ignored_witness :
    (("8080" : String).data.all isDigitByte = true ∧
      hasPortSuffix ("example.com" : String).data = false) ∧
    resolveApexDomain ("example.com" ++ ":" ++ "8080") =
      resolveApexDomain "example.com" :=
  ⟨⟨by decide, by decide⟩,
   (c6_port_ignored "example.com" "8080" (by decide) (by decide)).1⟩

/-- Witness for C7 at `"[::1]:80"`: the split yields host `"::1"` and
port `"80"`. -/
theorem c7_bracketed_ipv6_witness :
    ("80" : String).data.all isDigitByte = true ∧
    splitHostPort ("[" ++ "::1" ++ "]:" ++ "80").data =
      (("::1" : String).data, ("80" : String).data) :=
  ⟨by decide, c7_bracketed_ipv6 "::1" "80" (by decide)⟩

/-! ## Registry and dispatcher claims -/

theorem createAnubisServer_found (fac : Nat → Except String Unit) (d : String)
    (s : MState) (i : Nat) (hf : lookupD d s.servers = some i) :
    createAnubisServer fac d s = (none, s) := by
  simp [createAnubisServer, hf]

/-- Once the registry holds an instance `i` for `d`, a sequence of
requests that all resolve to `d` leaves the state untouched and
delegates every request to `i`. -/
theorem serveSeq_found (fac : Nat → Except String Unit) (tgt : Option String)
    (ep : Bool) (dErr : Option String) (hosts : List String) (d : String)
    (i : Nat) (s : MState) (hf : lookupD d s.servers = some i)
    (hall : ∀ h ∈ hosts, DomainFromRequest h = d) :
    serveSeq fac tgt ep dErr hosts s = (s, hosts.map fun _ => some i) := by
  induction hosts with
  | nil => rfl
  | cons h rest ih =>
    have hd : DomainFromRequest h = d := hall h (List.mem_cons_self h rest)
    have hrest := ih fun x hx => hall x (List.mem_cons_of_mem h hx)
    simp [serveSeq, serveHTTP, hd, createAnubisServer_found fac d s i hf, hf, hrest]

/-- C1: for every nonempty sequence of sequential requests whose hosts
all resolve to the same apex domain `d`, with a constructor that
succeeds, the dispatcher invokes the constructor exactly once (on the
first request) and delegates every request to that same instance, so
the construction count is 1 after the sequence. -/
theorem c1_single_construction (hosts : List String) (d : String)
    (tgt : Option String) (ep : Bool) (dErr : Option String)
    (hne : hosts ≠ []) (hall : ∀ h ∈ hosts, DomainFromRequest h = d) :
    (serveSeq okFac tgt ep dErr hosts initState).1.constructions = 1 ∧
    (serveSeq okFac tgt ep dErr hosts initState).2 = hosts.map fun _ => some 0 := by
  cases hosts with
  | nil => exact absurd rfl hne
  | cons h rest =>
    have hd : DomainFromRequest h = d := hall h (List.mem_cons_self h rest)
    have hstep : createAnubisServer okFac d initState =
        (none, ⟨[(d, 0)], 1⟩) := by
      simp [createAnubisServer, initState, lookupD, okFac]
    have hf : lookupD d (MState.servers ⟨[(d, 0)], 1⟩) = some 0 := by
      simp [lookupD]
    have hrest := serveSeq_found okFac tgt ep dErr rest d 0 ⟨[(d, 0)], 1⟩ hf
      fun x hx => hall x (List.mem_cons_of_mem h hx)
    constructor <;> simp [serveSeq, serveHTTP, hd, hstep, hf, hrest]

/-- Witness for C1: three sequential requests with hosts
`a.example.com`, `b.example.com:8080` and `example.com` — all resolving
to apex `example.com` — produce one construction, and all three are
delegated to instance `0`. -/
theorem c1_single_construction_witness :
    ((["a.example.com", "b.example.com:8080", "example.com"] : List String) ≠ [] ∧
      (∀ h ∈ (["a.example.com", "b.example.com:8080", "example.com"] : List String),
        DomainFromRequest h = "example.com")) ∧
    (serveSeq okFac none true none
        ["a.example.com", "b.example.com:8080", "example.com"] initState).1.constructions = 1 ∧
    (serveSeq okFac none true none
        ["a.example.com", "b.example.com:8080", "example.com"] initState).2 =
      (["a.example.com", "b.example.com:8080", "example.com"] : List String).map
        fun _ => some 0 :=
  ⟨⟨by decide, by decide⟩,
   c1_single_construction ["a.example.com", "b.example.com:8080", "example.com"]
     "example.com" none true none (by decide) (by decide)⟩

/-- A factory whose first construction attempt fails and whose later
attempts succeed. -/
def failThenOkFac (msg : String) : Nat → Except String Unit :=
  fun n => if n = 0 then .error msg else .ok ()

/-- C2: when the instance constructor fails for a domain not yet in
the registry, the error is returned to the current request's caller
and the registry map is left exactly as it was (no partial or poisoned
entry for the domain), so a subsequent request for the same domain
invokes the constructor afresh — the attempt counter advances again
whatever the second outcome. -/
theorem c2_creation_failure_retry (host : String)
    (fac : Nat → Except String Unit) (e : String) (tgt : Option String)
    (ep : Bool) (dErr : Option String) (s : MState)
    (hnone : lookupD (DomainFromRequest host) s.servers = none)
    (h0 : fac s.constructions = .error e) :
    (serveHTTP fac tgt ep dErr host s).1 = some e ∧
    (serveHTTP fac tgt ep dErr host s).2.1.servers = s.servers ∧
    (serveHTTP fac tgt ep dErr host
        (serveHTTP fac tgt ep dErr host s).2.1).2.1.constructions =
      s.constructions + 2 := by
  have h1 : createAnubisServer fac (DomainFromRequest host) s =
      (some e, ⟨s.servers, s.constructions + 1⟩) := by
    simp [createAnubisServer, hnone, h0]
  refine ⟨by simp [serveHTTP, h1], by simp [serveHTTP, h1], ?_⟩
  have hs1 : (serveHTTP fac tgt ep dErr host s).2.1 =
      ⟨s.servers, s.constructions + 1⟩ := by
    simp [serveHTTP, h1]
  rw [hs1]
  cases h2 : fac (s.constructions + 1) with
  | error e2 => simp [serveHTTP, createAnubisServer, hnone, h2]
  | ok u => simp [serveHTTP, createAnubisServer, hnone, h2]

/-- Witness for C2 with a factory failing on its first attempt with
`"boom"` for host `example.com`, starting from a fresh registry. -/
theorem c2_creation_failure_retry_witness :
    (lookupD (DomainFromRequest "example.com") initState.servers = none ∧
      failThenOkFac "boom" initState.constructions = .error "boom") ∧
    (serveHTTP (failThenOkFac "boom") none true none "example.com" initState).1 =
      some "boom" ∧
    (serveHTTP (failThenOkFac "boom") none true none "example.com"
        initState).2.1.servers = initState.servers ∧
    (serveHTTP (failThenOkFac "boom") none true none "example.com"
        (serveHTTP (failThenOkFac "boom") none true none "example.com"
          initState).2.1).2.1.constructions = initState.constructions + 2 :=
  ⟨⟨rfl, rfl⟩, c2_creation_failure_retry "example.com" (failThenOkFac "boom")
    "boom" none true none initState rfl rfl⟩

/-- C3 counterexample: the downstream handler's error is logged but is
NOT translated into a gateway-level error.  With no redirect target,
an engine that lets the request pass, and a downstream handler that
fails with `"boom"`, the pass-through closure logs `"boom"` yet the
dispatcher returns success (`nil`) to its caller. -/
theorem c3_counterexample :
    (serveHTTP okFac none true (some "boom") "example.com" initState).1 = none ∧
    (serveHTTP okFac none true (some "boom") "example.com" initState).2.2.2 =
      some ⟨.downstreamServed, some "boom"⟩ := by
  decide

/-- C3 amended: the error the dispatcher returns to its caller is
exactly the instance-creation error (creation errors are propagated,
and nothing else is ever returned — delegation to the challenge engine
has no error channel), and on the pass-through path without a redirect
target the downstream handler's error is logged, not returned. -/
theorem c3_error_propagation (fac : Nat → Except String Unit)
    (tgt : Option String) (ep : Bool) (dErr : Option String) (host : String)
    (s : MState) :
    (serveHTTP fac tgt ep dErr host s).1 =
      (createAnubisServer fac (DomainFromRequest host) s).1 ∧
    (anubisNextHandler none dErr).logged = dErr := by
  constructor
  · cases hc : createAnubisServer fac (DomainFromRequest host) s with
    | mk err s' => cases err <;> simp [serveHTTP, hc]
  · rfl

/-- C4: with a configured static target, every request (for every
domain) that passes the challenge is answered with a temporary
redirect (HTTP 307) to exactly that URL and the downstream handler is
not reached; with no target configured, the downstream handler is
invoked. -/
theorem c4_redirect_override (fac : Nat → Except String Unit) (url : String)
    (dErr : Option String) (host : String) (s : MState)
    (hok : (createAnubisServer fac (DomainFromRequest host) s).1 = none) :
    (serveHTTP fac (some url) true dErr host s).2.2.2 =
      some ⟨.redirected url 307, none⟩ ∧
    (serveHTTP fac none true dErr host s).2.2.2 =
      some ⟨.downstreamServed, dErr⟩ := by
  cases hc : createAnubisServer fac (DomainFromRequest host) s with
  | mk err s' =>
    rw [hc] at hok
    cases err with
    | some e => exact absurd hok (by simp)
    | none => constructor <;> simp [serveHTTP, hc, anubisNextHandler]

/-- Witness for C4 at host `example.com`, target `https://qwant.com`,
starting from a fresh registry with a succeeding constructor. -/
theorem c4_redirect_override_witness :
    (createAnubisServer okFac (DomainFromRequest "example.com") initState).1 =
      none ∧
    (serveHTTP okFac (some "https://qwant.com") true none "example.com"
        initState).2.2.2 = some ⟨.redirected "https://qwant.com" 307, none⟩ ∧
    (serveHTTP okFac none true none "example.com" initState).2.2.2 =
      some ⟨.downstreamServed, none⟩ :=
  ⟨by decide, c4_redirect_override okFac "https://qwant.com" none "example.com"
    initState (by decide)⟩

/-- C9: the unsynchronized lookup/construct/insert in
`CreateAnubisServer` violates single-flight creation.  Two requests
racing as the first for domain `example.com`, interleaved as
check₀, check₁, construct₀, insert₀, construct₁, insert₁, both run the
constructor: the construction count ends at 2 (the claim requires
exactly 1) and the two callers observe distinct instances (`0` and
`1`), with both entries in the map. -/
theorem c9_race_double_construction :
    (runRace "example.com" [0, 1, 0, 0, 1, 1] raceStart).constructions = 2 ∧
    (runRace "example.com" [0, 1, 0, 0, 1, 1] raceStart).locals =
      [⟨3, 0⟩, ⟨3, 1⟩] ∧
    (runRace "example.com" [0, 1, 0, 0, 1, 1] raceStart).servers =
      [("example.com", 1), ("example.com", 0)] := by
  decide

end CaddyAnubis
